import Mathlib

/-!
# A verification development for the `go-errors` structured-error library

This file shallowly embeds the core of the library (error.go, wrappers.go,
sentinels.go, stack.go) and proves the behavioural properties stated in its
specification.

Modelling conventions:
* a Go `error` interface value is `Option ErrVal`, with `none` for `nil`;
* a non-nil error is either a library `Error` (held by value, as in the
  source, whose methods all use value receivers) or a foreign error carrying
  its reflected type information (package path, type name, `Type.String()` of
  the pointed-to type) and its message;
* the `Value interface{}` field and JSON payloads are modelled by the `Json`
  tree below;
* a stack trace is a list of program counters; the frames captured by
  `runtime.Callers` at a call point are passed in as an explicit argument,
  since they are an input from the runtime.
-/

namespace GoErrors

/-- JSON values, used both for the `Value interface\x7b\x7d` field and for
serialized payloads. -/
inductive Json where
  | null : Json
  | bool (b : Bool) : Json
  | num (n : Int) : Json
  | str (s : String) : Json
  | arr (elems : List Json) : Json
  | obj (fields : List (String × Json)) : Json

/-- A stack trace: the program-counter values of the captured frames
(`type StackTrace []StackFrame` with opaque frames). -/
abbrev StackTrace := List Nat

/-- `StackTrace.Initialize` from stack.go: it unconditionally repopulates the
trace with the frames captured by `runtime.Callers` at the call point
(`frames`); the previous contents of the trace are discarded. -/
def initStack (_st frames : StackTrace) : StackTrace := frames

mutual
/-- The `Error` struct from error.go: `Code`, `ID`, `Text`, `What`, `Value`,
`Causes []error`, `Stack`. -/
inductive Error where
  | mk (Code : Int) (ID : String) (Text : String) (What : String)
       (Value : Option Json) (Causes : List (Option ErrVal)) (Stack : StackTrace) : Error

/-- A non-nil Go `error` interface value: either a library `Error` held by
value, or a foreign error (with the reflected package path, type name and
`Type.String()` of its pointed-to type, plus its `Error()` message). -/
inductive ErrVal where
  | structured (e : Error) : ErrVal
  | foreign (pkgPath : String) (typeName : String) (typeString : String)
      (msg : String) : ErrVal
end

def Error.Code : Error → Int
  | .mk c _ _ _ _ _ _ => c

def Error.ID : Error → String
  | .mk _ i _ _ _ _ _ => i

def Error.Text : Error → String
  | .mk _ _ t _ _ _ _ => t

def Error.What : Error → String
  | .mk _ _ _ w _ _ _ => w

def Error.Value : Error → Option Json
  | .mk _ _ _ _ v _ _ => v

def Error.Causes : Error → List (Option ErrVal)
  | .mk _ _ _ _ _ cs _ => cs

def Error.Stack : Error → StackTrace
  | .mk _ _ _ _ _ _ st => st

/-- `NewSentinel(code, id, message)` from sentinels.go: an `Error` with only
`Code`, `ID` and `Text` set (no stack). -/
def NewSentinel (code : Int) (id message : String) : Error :=
  .mk code id message "" none [] []

/-- Sentinel `ArgumentMissing` from sentinels.go. -/
def ArgumentMissing : Error :=
  NewSentinel 400 "error.argument.missing" "Argument %s is missing"

/-- Sentinel `ArgumentInvalid` from sentinels.go. -/
def ArgumentInvalid : Error :=
  NewSentinel 400 "error.argument.invalid" "Argument %s is invalid (value: %v)"

/-- Sentinel `InvalidType` from sentinels.go. -/
def InvalidType : Error :=
  NewSentinel 400 "error.type.invalid" "Invalid Type %s, expected: %s"

/-- Sentinel `JSONMarshalError` from sentinels.go. -/
def JSONMarshalError : Error :=
  NewSentinel 400 "error.json.marshal" "JSON failed to marshal data"

/-- Sentinel `JSONUnmarshalError` from sentinels.go. -/
def JSONUnmarshalError : Error :=
  NewSentinel 400 "error.json.unmarshal" "JSON failed to unmarshal data"

/-- `Error.Is` from error.go: the type assertion `target.(Error)` succeeds only
for a structured error held by value; an empty target `ID` matches anything,
otherwise the `ID`s must be equal. -/
def Error.Is (e : Error) (target : ErrVal) : Bool :=
  match target with
  | .structured actual => if actual.ID = "" then true else e.ID = actual.ID
  | .foreign _ _ _ _ => false

/-- The `Is(error) bool` dynamic dispatch used by the standard-library chain
walk: only a structured error implements the method. -/
def errIs (v target : ErrVal) : Bool :=
  match v with
  | .structured e => e.Is target
  | .foreign _ _ _ _ => false

/-- `Error.WithCause` from error.go (pointer receiver, modelled as returning
the updated value): appends the given errors to `Causes`. -/
def Error.WithCause (e : Error) (errs : List (Option ErrVal)) : Error :=
  .mk e.Code e.ID e.Text e.What e.Value (e.Causes ++ errs) e.Stack

/-- `Error.Wrap` from error.go: `nil` is propagated; otherwise a copy of the
receiver with the cause appended to `Causes` and the stack re-captured at the
call point. -/
def Error.Wrap (e : Error) (err : Option ErrVal) (frames : StackTrace) :
    Option ErrVal :=
  match err with
  | none => none
  | some _ =>
    some (.structured (.mk e.Code e.ID e.Text e.What e.Value
      (e.Causes ++ [err]) (initStack e.Stack frames)))

/-- `Error.Unwrap` from error.go: the first element of `Causes`, or `nil` when
there is none. -/
def Error.Unwrap (e : Error) : Option ErrVal :=
  match e.Causes with
  | [] => none
  | c :: _ => c

/-- `Error.With` from error.go: a copy with `What` set, `Value` set to the
first extra value when one is given, and the stack captured at the call
point. -/
def Error.With (e : Error) (what : String) (values : List (Option Json))
    (frames : StackTrace) : ErrVal :=
  .structured (.mk e.Code e.ID e.Text what
    (match values with
     | [] => e.Value
     | v :: _ => v)
    e.Causes (initStack e.Stack frames))

/-- `Error.WithStack` from error.go: a copy with the stack captured at the
call point. -/
def Error.WithStack (e : Error) (frames : StackTrace) : ErrVal :=
  .structured (.mk e.Code e.ID e.Text e.What e.Value e.Causes
    (initStack e.Stack frames))

/-- `Error.WithoutStack` from error.go: a copy with the stack cleared. -/
def Error.WithoutStack (e : Error) : ErrVal :=
  .structured (.mk e.Code e.ID e.Text e.What e.Value e.Causes [])

/-- `errors.Unwrap` from the standard library: calls the `Unwrap` method when
the dynamic type has one (only the structured error does). -/
def goUnwrap : Option ErrVal → Option ErrVal
  | some (.structured e) => e.Unwrap
  | _ => none

mutual
/-- The walk of `errors.As(err, &target)` over a structured link, with
`target` a non-nil `*Error` obtained by cloning a sentinel with identifier
`tid`: a copy of the first structured error in the unwrap chain whose `ID`
equals `tid` (the matching condition of `Error.As`); the walk then follows
`Error.Unwrap`, i.e. the head of `Causes`. -/
def goAsE : Error → String → Option Error
  | .mk c i t w v causes st, tid =>
    if i = tid then some (.mk c i t w v causes st)
    else goAsCauses causes tid

/-- One unwrap step of the `errors.As` walk: the head of `Causes` is followed
when it is a further structured error; a nil or foreign link ends the walk. -/
def goAsCauses : List (Option ErrVal) → String → Option Error
  | [], _ => none
  | none :: _, _ => none
  | some (.foreign _ _ _ _) :: _, _ => none
  | some (.structured e) :: _, tid => goAsE e tid
end

/-- `errors.As(err, &target)` with `target` a non-nil cloned sentinel with
identifier `tid`, on a Go `error` interface value. -/
def goAs : Option ErrVal → String → Option Error
  | none, _ => none
  | some (.foreign _ _ _ _), _ => none
  | some (.structured e), tid => goAsE e tid

/-- Package-level `WithStack` from wrappers.go: `nil` passes through, a
structured error keeps an already-captured stack and captures one otherwise,
and a foreign error is wrapped in a generic runtime `Error`. -/
def WithStack (err : Option ErrVal) (frames : StackTrace) : Option ErrVal :=
  match err with
  | none => none
  | some (.structured e) =>
    if e.Stack.length = 0 then some (e.WithStack frames)
    else some (.structured e)
  | some (.foreign p n ts m) =>
    (Error.mk 500 "error.runtime" "" "" none [] []).Wrap
      (some (.foreign p n ts m)) frames

/-- The container normalization inside `WrapErrors` (wrappers.go): the first
argument is used as-is when it is a structured error, and otherwise replaced
by `Error\x7bCode: 500, ID: "error.runtime", Text: err.Error()\x7d` (for a
leaf foreign error, `Error()` is its message). -/
def toContainer : ErrVal → Error
  | .structured e => e
  | .foreign _ _ _ msg => .mk 500 "error.runtime" msg "" none [] []

/-- `WrapErrors` from wrappers.go: `nil` first argument short-circuits to
`nil`, an empty rest returns the first argument unchanged, a singleton rest
wraps it unless it is `nil` (in which case the container alone is returned),
and a longer rest folds right-to-left through recursive calls. -/
def WrapErrors (err : Option ErrVal) (errs : List (Option ErrVal))
    (frames : StackTrace) : Option ErrVal :=
  match err with
  | none => none
  | some e0 =>
    match errs with
    | [] => some e0
    | [e1] =>
      match e1 with
      | some _ => (toContainer e0).Wrap e1 frames
      | none => some (.structured (toContainer e0))
    | e1 :: rest => (toContainer e0).Wrap (WrapErrors e1 rest frames) frames

/-- The identifier given to a normalized foreign cause in `MarshalJSON`
(error.go): `"error.runtime"`, suffixed with the concrete type's
`Type.String()` unless the cause is a plain `errors.errorString`. -/
def runtimeId (pkgPath typeName typeString : String) : String :=
  if pkgPath = "errors" && typeName = "errorString" then "error.runtime"
  else "error.runtime." ++ typeString

/-- The object emitted by `Error.MarshalJSON` (error.go): the `"type"`
discriminator, then the surrogate fields with their `omitempty` tags
(`code`, `id`, `text`, `what`, `value`), then a single `"cause"` when exactly
one cause remains after normalization, or a `"causes"` array when several do
(omitted when empty).  `Causes` and `Stack` are tagged `json:"-"` in the
source, so no key is ever emitted for them. -/
def marshalPayload (code : Int) (id text what : String) (value : Option Json)
    (mcauses : List Json) : Json :=
  .obj ([("type", .str "error")]
    ++ (if code = 0 then [] else [("code", .num code)])
    ++ (if id = "" then [] else [("id", .str id)])
    ++ (if text = "" then [] else [("text", .str text)])
    ++ (if what = "" then [] else [("what", .str what)])
    ++ (match value with
        | none => []
        | some v => [("value", v)])
    ++ (match mcauses with
        | [] => []
        | [m] => [("cause", m)]
        | ms => [("causes", .arr ms)]))

mutual
/-- `Error.MarshalJSON` from error.go, as the JSON tree it produces (with a
JSON-representable `Value`, `json.Marshal` cannot fail, and the source then
returns `JSONMarshalError.Wrap(nil) = nil` for the error result). -/
def marshalError : Error → Json
  | .mk code id text what value causes _ =>
    marshalPayload code id text what value (marshalCauses causes)

/-- The cause-normalization loop of `Error.MarshalJSON`: `nil` causes are
skipped, structured causes are marshalled as they are (`Is(cause, Error\x7b\x7d)`
holds exactly for them), and a foreign cause becomes the synthetic
`Error\x7bCode: 500, ID: runtimeId, Text: msg\x7d`, marshalled in turn. -/
def marshalCauses : List (Option ErrVal) → List Json
  | [] => []
  | none :: rest => marshalCauses rest
  | some (.structured e) :: rest => marshalError e :: marshalCauses rest
  | some (.foreign p n ts m) :: rest =>
    marshalPayload 500 (runtimeId p n ts) m "" none [] :: marshalCauses rest
end

/-- `Error.MarshalJSON` under its source name. -/
def Error.MarshalJSON (e : Error) : Json := marshalError e

/-- Field lookup in a decoded JSON object; as in `encoding/json`, a later
duplicate key takes precedence. -/
def jlookup (fields : List (String × Json)) (key : String) : Option Json :=
  match fields.reverse.find? (fun kv => kv.1 = key) with
  | some kv => some kv.2
  | none => none

mutual
/-- Total size of a JSON tree; used as the recursion budget for the decoder
(the decoder only ever descends into proper subtrees, so this budget is never
exhausted when the decoder starts with the size of its payload). -/
def jsize : Json → Nat
  | .null => 1
  | .bool _ => 1
  | .num _ => 1
  | .str _ => 1
  | .arr es => 1 + jsizeList es
  | .obj fs => 1 + jsizeFields fs

def jsizeList : List Json → Nat
  | [] => 0
  | j :: rest => 1 + jsize j + jsizeList rest

def jsizeFields : List (String × Json) → Nat
  | [] => 0
  | (_, j) :: rest => 1 + jsize j + jsizeFields rest
end

/-- The error `encoding/json` reports for a payload whose shape does not match
the Go value being populated (an `*json.UnmarshalTypeError`). -/
def jsonTypeErr (msg : String) : ErrVal :=
  .foreign "encoding/json" "UnmarshalTypeError" "json.UnmarshalTypeError" msg

/-- `e.Wrap(some cause)` always yields this structured error; kept as a plain
function so the decoder's error values are explicit. -/
def wrapAsErr (e : Error) (cause : ErrVal) (frames : StackTrace) : ErrVal :=
  .structured (.mk e.Code e.ID e.Text e.What e.Value
    (e.Causes ++ [some cause]) (initStack e.Stack frames))

/-- `wrapAsErr` is exactly the non-nil case of `Error.Wrap`. -/
theorem wrap_some_eq_wrapAsErr (e : Error) (v : ErrVal) (fr : StackTrace) :
    e.Wrap (some v) fr = some (wrapAsErr e v fr) := rfl

/-- The inner surrogate struct of `Error.UnmarshalJSON` (error.go): the
discriminator, the scalar fields, an optional single decoded `cause` and a
list of decoded `causes`. -/
structure Inner where
  type : String
  code : Int
  id : String
  text : String
  what : String
  value : Option Json
  cause : Option Error
  causes : List Error

/-- Placeholder error for the decoder's recursion budget; never produced when
the decoder is started through `Error.UnmarshalJSON`, whose budget strictly
exceeds the length of any descent into the payload. -/
def fuelErr : ErrVal :=
  .foreign "goerrors.model" "budget" "model.budget"
    "decoder recursion budget exhausted"

/-- Decoding a string-typed surrogate field: an absent or `null` field leaves
the zero value, a string is taken as is, anything else is an
`*json.UnmarshalTypeError` (raw here; the enclosing `UnmarshalJSON` wraps
whatever `json.Unmarshal` reports). -/
def decodeStringField (fields : List (String × Json)) (key : String) :
    Except ErrVal String :=
  match jlookup fields key with
  | none => .ok ""
  | some .null => .ok ""
  | some (.str s) => .ok s
  | some _ =>
    .error (jsonTypeErr ("json: cannot unmarshal value into Go struct field ." ++
      key ++ " of type string"))

/-- Decoding the numeric `code` surrogate field, in the same way. -/
def decodeIntField (fields : List (String × Json)) (key : String) :
    Except ErrVal Int :=
  match jlookup fields key with
  | none => .ok 0
  | some .null => .ok 0
  | some (.num n) => .ok n
  | some _ =>
    .error (jsonTypeErr ("json: cannot unmarshal value into Go struct field ." ++
      key ++ " of type int"))

/-- Decoding the `value` surrogate field (`interface\x7b\x7d`): any JSON value
is accepted; absent or `null` leaves a nil interface. -/
def decodeValueField (fields : List (String × Json)) : Option Json :=
  match jlookup fields "value" with
  | none => none
  | some .null => none
  | some v => some v

/-- The error returned when the `"type"` discriminator is not `"error"`:
`JSONUnmarshalError.Wrap(InvalidType.With("error", inner.Type))`. -/
def typeMismatchErr (ty : String) (frames : StackTrace) : ErrVal :=
  wrapAsErr JSONUnmarshalError (InvalidType.With "error" [some (.str ty)] frames)
    frames

/-- The receiver assignment at the end of `Error.UnmarshalJSON`:
`*e = Error(inner.surrogate)` (whose `Causes` and `Stack` are `json:"-"`,
hence empty), then `inner.Causes` when non-empty, then `inner.Cause`
appended when non-nil. -/
def buildDecoded (inner : Inner) : Error :=
  .mk inner.code inner.id inner.text inner.what inner.value
    (inner.causes.map (fun er => some (.structured er)) ++
      (match inner.cause with
       | some c => [some (.structured c)]
       | none => []))
    []

/-- The tail of `Error.UnmarshalJSON` after the `json.Unmarshal(payload,
&inner)` call: a parse failure is wrapped (`JSONUnmarshalError.Wrap(err)` —
so a failure of a nested cause decode, itself already wrapped once, comes out
wrapped twice), a wrong `"type"` fails with `typeMismatchErr`, and only then
is the receiver populated. -/
def finishDecode (parsed : Except ErrVal Inner) (frames : StackTrace) :
    Except ErrVal Error :=
  match parsed with
  | .error e => .error (wrapAsErr JSONUnmarshalError e frames)
  | .ok inner =>
    if inner.type = "error" then .ok (buildDecoded inner)
    else .error (typeMismatchErr inner.type frames)

mutual
/-- `Error.UnmarshalJSON` from error.go, on an already-parsed JSON tree with
an explicit recursion budget.  A JSON object (or `null`, which `encoding/json`
treats as a no-op) has its surrogate fields decoded and its discriminator
checked; any other payload is a `*json.UnmarshalTypeError` wrapped in
`JSONUnmarshalError`. -/
def unmarshalErrorF : Nat → Json → StackTrace → Except ErrVal Error
  | 0, _, _ => .error fuelErr
  | fuel + 1, payload, frames =>
    match payload with
    | .obj fields => finishDecode (parseInnerF fuel fields frames) frames
    | .null => finishDecode (parseInnerF fuel [] frames) frames
    | _ =>
      finishDecode
        (.error (jsonTypeErr "json: cannot unmarshal value into Go value of type errors.Error"))
        frames

/-- Parsing the inner surrogate struct: the scalar fields in tag order, then
the recursively decoded `cause` (a `null` leaves the nil pointer untouched)
and `causes`.  `encoding/json` reports mismatches in payload-key order; this
model checks the fields in a fixed order, which only matters when several
fields are ill-typed at once. -/
def parseInnerF : Nat → List (String × Json) → StackTrace →
    Except ErrVal Inner
  | 0, _, _ => .error fuelErr
  | fuel + 1, fields, frames => do
    let ty ← decodeStringField fields "type"
    let code ← decodeIntField fields "code"
    let id ← decodeStringField fields "id"
    let text ← decodeStringField fields "text"
    let what ← decodeStringField fields "what"
    let value := decodeValueField fields
    let cause ← (match jlookup fields "cause" with
      | none => Except.ok none
      | some .null => Except.ok none
      | some j =>
        match unmarshalErrorF fuel j frames with
        | .error e => .error e
        | .ok c => .ok (some c))
    let causes ← (match jlookup fields "causes" with
      | none => Except.ok []
      | some .null => Except.ok []
      | some (.arr js) => unmarshalCausesF fuel js frames
      | some _ =>
        .error (jsonTypeErr "json: cannot unmarshal value into Go struct field .causes of type []errors.Error"))
    .ok ⟨ty, code, id, text, what, value, cause, causes⟩

/-- Decoding the `"causes"` array into `[]Error`: each element through
`(*Error).UnmarshalJSON`, stopping at the first failure.  `encoding/json`
passes even a `null` element to the addressable element's unmarshaler, whose
discriminator check then fails. -/
def unmarshalCausesF : Nat → List Json → StackTrace → Except ErrVal (List Error)
  | 0, _, _ => .error fuelErr
  | _ + 1, [], _ => .ok []
  | fuel + 1, j :: rest, frames =>
    match unmarshalErrorF fuel j frames with
    | .error e => .error e
    | .ok c =>
      match unmarshalCausesF fuel rest frames with
      | .error e => .error e
      | .ok cs => .ok (c :: cs)
end

/-- `Error.UnmarshalJSON` under its source name: the recursion budget
`jsize payload + 1` strictly exceeds the length of any descent into the
payload, so `fuelErr` is unreachable from here. -/
def Error.UnmarshalJSON (payload : Json) (frames : StackTrace) :
    Except ErrVal Error :=
  unmarshalErrorF (jsize payload + 1) payload frames

/-- The receiver semantics of `Error.UnmarshalJSON`: on failure the receiver
is left untouched (it is only assigned after the payload has parsed and the
discriminator has been checked). -/
def unmarshalInto (receiver : Error) (payload : Json) (frames : StackTrace) :
    Error × Option ErrVal :=
  match Error.UnmarshalJSON payload frames with
  | .ok e => (e, none)
  | .error err => (receiver, some err)

/-- Congruence for `Except` binds with equal scrutinees. -/
theorem ebind_congr {ε α β : Type} {a b : Except ε α} {f g : α → Except ε β}
    (hab : a = b) (h : ∀ x, f x = g x) : (a >>= f) = (b >>= g) := by
  subst hab
  exact congrArg _ (funext h)

theorem jsize_pos (p : Json) : 1 ≤ jsize p := by
  cases p <;> simp [jsize]

theorem jsize_lt_of_mem (kv : String × Json) (fields : List (String × Json))
    (h : kv ∈ fields) : jsize kv.2 < jsizeFields fields := by
  induction fields with
  | nil => cases h
  | cons hd tl ih =>
    obtain ⟨k, j⟩ := hd
    rcases List.mem_cons.mp h with h | h
    · subst h
      simp only [jsizeFields]
      omega
    · have := ih h
      simp only [jsizeFields]
      omega

theorem jlookup_size (fields : List (String × Json)) (key : String) (v : Json)
    (h : jlookup fields key = some v) : jsize v < jsizeFields fields := by
  unfold jlookup at h
  cases hf : fields.reverse.find? (fun kv => kv.1 = key) with
  | none => rw [hf] at h; cases h
  | some kv =>
    rw [hf] at h
    injection h with h
    subst h
    exact jsize_lt_of_mem kv fields
      (List.mem_reverse.mp (List.mem_of_find?_eq_some hf))

mutual
theorem unmarshalErrorF_mono : (f1 f2 : Nat) → (p : Json) → (fr : StackTrace) →
    jsize p < f1 → jsize p < f2 →
    unmarshalErrorF f1 p fr = unmarshalErrorF f2 p fr
  | 0, _, p, _, h1, _ => absurd h1 (Nat.not_lt_zero _)
  | _ + 1, 0, p, _, _, h2 => absurd h2 (Nat.not_lt_zero _)
  | g1 + 1, g2 + 1, p, fr, h1, h2 => by
    cases p with
    | obj fields =>
      have hb1 : jsizeFields fields < g1 := by simp only [jsize] at h1; omega
      have hb2 : jsizeFields fields < g2 := by simp only [jsize] at h2; omega
      show finishDecode (parseInnerF g1 fields fr) fr
          = finishDecode (parseInnerF g2 fields fr) fr
      rw [parseInnerF_mono g1 g2 fields fr hb1 hb2]
    | null =>
      have hb1 : jsizeFields ([] : List (String × Json)) < g1 := by
        simp only [jsize] at h1; simp only [jsizeFields]; omega
      have hb2 : jsizeFields ([] : List (String × Json)) < g2 := by
        simp only [jsize] at h2; simp only [jsizeFields]; omega
      show finishDecode (parseInnerF g1 [] fr) fr
          = finishDecode (parseInnerF g2 [] fr) fr
      rw [parseInnerF_mono g1 g2 [] fr hb1 hb2]
    | bool b => rfl
    | num n => rfl
    | str s => rfl
    | arr es => rfl

theorem parseInnerF_mono : (f1 f2 : Nat) → (fields : List (String × Json)) →
    (fr : StackTrace) → jsizeFields fields < f1 → jsizeFields fields < f2 →
    parseInnerF f1 fields fr = parseInnerF f2 fields fr
  | 0, _, fields, _, h1, _ => absurd h1 (Nat.not_lt_zero _)
  | _ + 1, 0, fields, _, _, h2 => absurd h2 (Nat.not_lt_zero _)
  | g1 + 1, g2 + 1, fields, fr, h1, h2 => by
    have hb1 : jsizeFields fields ≤ g1 := Nat.lt_succ_iff.mp h1
    have hb2 : jsizeFields fields ≤ g2 := Nat.lt_succ_iff.mp h2
    simp only [parseInnerF]
    refine ebind_congr rfl fun ty => ?_
    refine ebind_congr rfl fun code => ?_
    refine ebind_congr rfl fun id => ?_
    refine ebind_congr rfl fun text => ?_
    refine ebind_congr rfl fun what => ?_
    refine ebind_congr ?_ fun cause => ?_
    · cases hcl : jlookup fields "cause" with
      | none => rfl
      | some j =>
        have hj := jlookup_size fields "cause" j hcl
        cases j with
        | null => rfl
        | bool b =>
          simp only [unmarshalErrorF_mono g1 g2 (.bool b) fr (by omega) (by omega)]
        | num n =>
          simp only [unmarshalErrorF_mono g1 g2 (.num n) fr (by omega) (by omega)]
        | str s =>
          simp only [unmarshalErrorF_mono g1 g2 (.str s) fr (by omega) (by omega)]
        | arr es =>
          simp only [unmarshalErrorF_mono g1 g2 (.arr es) fr (by omega) (by omega)]
        | obj fs =>
          simp only [unmarshalErrorF_mono g1 g2 (.obj fs) fr (by omega) (by omega)]
    · refine ebind_congr ?_ fun causes => rfl
      cases hcl2 : jlookup fields "causes" with
      | none => rfl
      | some j2 =>
        have hj2 := jlookup_size fields "causes" j2 hcl2
        cases j2 with
        | null => rfl
        | bool b => rfl
        | num n => rfl
        | str s => rfl
        | obj fs => rfl
        | arr js =>
          have hjs : jsize (Json.arr js) = 1 + jsizeList js := rfl
          simp only [unmarshalCausesF_mono g1 g2 js fr (by omega) (by omega)]

theorem unmarshalCausesF_mono : (f1 f2 : Nat) → (js : List Json) →
    (fr : StackTrace) → jsizeList js < f1 → jsizeList js < f2 →
    unmarshalCausesF f1 js fr = unmarshalCausesF f2 js fr
  | 0, _, js, _, h1, _ => absurd h1 (Nat.not_lt_zero _)
  | _ + 1, 0, js, _, _, h2 => absurd h2 (Nat.not_lt_zero _)
  | g1 + 1, g2 + 1, [], fr, h1, h2 => rfl
  | g1 + 1, g2 + 1, j :: rest, fr, h1, h2 => by
    have hsz : jsizeList (j :: rest) = 1 + jsize j + jsizeList rest := rfl
    have hr1 : jsizeList rest < g1 := by omega
    have hr2 : jsizeList rest < g2 := by omega
    simp only [unmarshalCausesF]
    rw [unmarshalCausesF_mono g1 g2 rest fr hr1 hr2,
      unmarshalErrorF_mono g1 g2 j fr (by omega) (by omega)]
end

theorem UnmarshalJSON_budget_canonical (f : Nat) (p : Json) (fr : StackTrace)
    (hf : jsize p < f) :
    unmarshalErrorF f p fr = Error.UnmarshalJSON p fr :=
  unmarshalErrorF_mono f (jsize p + 1) p fr hf (Nat.lt_succ_self _)

mutual
/-- No error-object in this encoded tree carries a `"stack"` key: the check
looks at the keys the codec emits and descends into the `"cause"` and
`"causes"` entries, which the codec itself produces (a user-supplied `"value"`
is opaque data, not a codec field). -/
def encNoStack : Json → Bool
  | .obj fields => encFieldsNoStack fields
  | .null => true
  | .bool _ => true
  | .num _ => true
  | .str _ => true
  | .arr es => encListNoStack es

def encFieldsNoStack : List (String × Json) → Bool
  | [] => true
  | (k, v) :: rest =>
    (if k = "stack" then false
     else if k = "cause" ∨ k = "causes" then encNoStack v
     else true) && encFieldsNoStack rest

def encListNoStack : List Json → Bool
  | [] => true
  | j :: rest => encNoStack j && encListNoStack rest
end

theorem encFieldsNoStack_append (l1 l2 : List (String × Json)) :
    encFieldsNoStack (l1 ++ l2) = (encFieldsNoStack l1 && encFieldsNoStack l2) := by
  induction l1 with
  | nil => simp [encFieldsNoStack]
  | cons kv rest ih =>
    cases kv with
    | mk k v => simp [encFieldsNoStack, ih, Bool.and_assoc]

theorem marshalPayload_noStack (code : Int) (id text what : String)
    (value : Option Json) (ms : List Json) (hms : encListNoStack ms = true) :
    encNoStack (marshalPayload code id text what value ms) = true := by
  unfold marshalPayload
  simp only [encNoStack, encFieldsNoStack_append, Bool.and_eq_true]
  refine ⟨⟨⟨⟨⟨⟨?_, ?_⟩, ?_⟩, ?_⟩, ?_⟩, ?_⟩, ?_⟩
  · simp [encFieldsNoStack]
  · split <;> simp [encFieldsNoStack]
  · split <;> simp [encFieldsNoStack]
  · split <;> simp [encFieldsNoStack]
  · split <;> simp [encFieldsNoStack]
  · cases value <;> simp [encFieldsNoStack]
  · match ms, hms with
    | [], _ => simp [encFieldsNoStack]
    | [m], hms =>
      simp only [encListNoStack, Bool.and_eq_true] at hms
      simp [encFieldsNoStack, hms.1]
    | m1 :: m2 :: rest, hms =>
      simp [encFieldsNoStack, encNoStack, hms]

mutual
theorem marshalError_noStack : (e : Error) →
    encNoStack (marshalError e) = true
  | .mk code id text what value causes st => by
    unfold marshalError
    exact marshalPayload_noStack code id text what value _
      (marshalCauses_noStack causes)

theorem marshalCauses_noStack : (cs : List (Option ErrVal)) →
    encListNoStack (marshalCauses cs) = true
  | [] => by simp [marshalCauses, encListNoStack]
  | none :: rest => by
    simpa [marshalCauses] using marshalCauses_noStack rest
  | some (.structured e) :: rest => by
    simp [marshalCauses, encListNoStack, marshalError_noStack e,
      marshalCauses_noStack rest]
  | some (.foreign p n ts m) :: rest => by
    simp [marshalCauses, encListNoStack, marshalCauses_noStack rest,
      marshalPayload_noStack 500 (runtimeId p n ts) m "" none []
        (by simp [encListNoStack])]
end

/-- Every successful decode leaves the receiver's `Stack` empty: the
assignment `*e = Error(inner.surrogate)` copies the zero `Stack`
(`json:"-"`), and no later step touches it. -/
theorem unmarshal_stack_empty (fuel : Nat) (p : Json) (fr : StackTrace)
    (x : Error) (h : unmarshalErrorF fuel p fr = .ok x) : x.Stack = [] := by
  cases fuel with
  | zero => simp [unmarshalErrorF] at h
  | succ fuel =>
    have finish :
        ∀ (parsed : Except ErrVal Inner),
          finishDecode parsed fr = .ok x → x.Stack = [] := by
      intro parsed hf
      cases parsed with
      | error e => simp [finishDecode] at hf
      | ok inner =>
        simp only [finishDecode] at hf
        split at hf
        · injection hf with h2
          rw [← h2]
          rfl
        · simp at hf
    cases p with
    | obj fields => exact finish _ h
    | null => exact finish _ h
    | bool b =>
      unfold unmarshalErrorF at h
      exact finish _ h
    | num n =>
      unfold unmarshalErrorF at h
      exact finish _ h
    | str s =>
      unfold unmarshalErrorF at h
      exact finish _ h
    | arr es =>
      unfold unmarshalErrorF at h
      exact finish _ h

/-- A nil first argument short-circuits `WrapErrors` whatever the rest is. -/
theorem wrapErrors_none (rest : List (Option ErrVal)) (fr : StackTrace) :
    WrapErrors none rest fr = none := by
  cases rest with
  | nil => rfl
  | cons r rs =>
    cases rs with
    | nil => rfl
    | cons r2 rs2 => rfl

/-- An error whose `ID` equals the target's Is-matches it. -/
theorem Is_of_id_eq (e t : Error) (h : e.ID = t.ID) :
    e.Is (.structured t) = true := by
  simp only [Error.Is]
  split
  · rfl
  · simp [h]

/-- C1: for every sentinel `S` and every string `what`, the derived error
`S.With(what)` Is-matches `S`; it does not Is-match a sentinel whose (non-empty)
`ID` differs from `S`'s; and any `Error` Is-matches a target `Error` whose `ID`
is empty — empty-ID targets are wildcards. -/
theorem C1_is_matching (S T U W : Error) (what : String)
    (vals : List (Option Json)) (fr : StackTrace)
    (hdiff : T.ID ≠ S.ID) (hT : T.ID ≠ "") (hW : W.ID = "") :
    errIs (S.With what vals fr) (.structured S) = true ∧
    errIs (S.With what vals fr) (.structured T) = false ∧
    U.Is (.structured W) = true := by
  refine ⟨?_, ?_, ?_⟩
  · show (Error.mk S.Code S.ID S.Text what _ S.Causes _).Is (.structured S) = true
    exact Is_of_id_eq _ _ rfl
  · show (Error.mk S.Code S.ID S.Text what _ S.Causes _).Is (.structured T) = false
    simp only [Error.Is]
    rw [if_neg hT]
    exact decide_eq_false fun h => hdiff ((show S.ID = T.ID from h).symm)
  · simp [Error.Is, hW]

/-- C1 witness: the theorem at `ArgumentMissing`, `ArgumentInvalid`, a
sentinel target with an empty `ID`, and `what = "key"`. -/
theorem C1_is_matching_witness :
    errIs (ArgumentMissing.With "key" [] []) (.structured ArgumentMissing) = true ∧
    errIs (ArgumentMissing.With "key" [] []) (.structured ArgumentInvalid) = false ∧
    InvalidType.Is (.structured (NewSentinel 0 "" "")) = true :=
  C1_is_matching ArgumentMissing ArgumentInvalid InvalidType (NewSentinel 0 "" "")
    "key" [] [] (by decide) (by decide) (by decide)

/-- A pre-existing cause of the middle error of a `WrapErrors` chain. -/
def c2preCause : ErrVal :=
  .foreign "errors" "errorString" "errors.errorString" "pre"

/-- A middle error that already carries a cause before being chained. -/
def c2B : Error :=
  .mk 404 "error.notfound" "%s %s Not Found" "" none [some c2preCause] []

/-- `WrapErrors(ArgumentMissing, c2B, InvalidType)` — every argument non-nil,
as the claim requires. -/
def wC2 : Option ErrVal :=
  WrapErrors (some (.structured ArgumentMissing))
    [some (.structured c2B), some (.structured InvalidType)] []

/-- C2 counterexample: the claim quantifies over every errors `A`, `B`, `C`
with `A` non-nil, but when `B` already carries a cause, the second `Unwrap`
of `WrapErrors(A, B, C)` returns that pre-existing first cause — `Wrap`
appends to `Causes` while `Unwrap` reads `Causes[0]` — so it neither equals
nor Is-matches `C`. -/
theorem C2_counterexample :
    goUnwrap (goUnwrap wC2) = some c2preCause ∧
    goUnwrap (goUnwrap wC2) ≠ some (.structured InvalidType) ∧
    (goUnwrap (goUnwrap wC2)).map (fun v => errIs v (.structured InvalidType))
      = some false := by
  refine ⟨rfl, ?_, rfl⟩
  rw [show goUnwrap (goUnwrap wC2) = some c2preCause from rfl]
  simp [c2preCause]

/-- C2 (amended): for cause-free library errors `A`, `B`, `C`,
`WrapErrors(A, B, C)` folds right-to-left — the result is
`A.Wrap(B.Wrap(C))`; the result Is-matches `A`, its `Unwrap` Is-matches `B`,
unwrapping again yields `C`, and once more yields nil. -/
theorem C2_chain_order (A B C : Error) (fr : StackTrace)
    (hA : A.Causes = []) (hB : B.Causes = []) (hC : C.Causes = []) :
    WrapErrors (some (.structured A))
        [some (.structured B), some (.structured C)] fr
      = A.Wrap (B.Wrap (some (.structured C)) fr) fr ∧
    ∃ a' b' : Error,
      WrapErrors (some (.structured A))
          [some (.structured B), some (.structured C)] fr
        = some (.structured a') ∧
      a'.Is (.structured A) = true ∧ a'.ID = A.ID ∧
      a'.Unwrap = some (.structured b') ∧
      b'.Is (.structured B) = true ∧ b'.ID = B.ID ∧
      b'.Unwrap = some (.structured C) ∧
      C.Unwrap = none := by
  obtain ⟨cA, iA, tA, wA, vA, csA, stA⟩ := A
  obtain ⟨cB, iB, tB, wB, vB, csB, stB⟩ := B
  obtain ⟨cC, iC, tC, wC, vC, csC, stC⟩ := C
  simp only [Error.Causes] at hA hB hC
  subst hA; subst hB; subst hC
  refine ⟨rfl, _, _, rfl, ?_, rfl, rfl, ?_, rfl, rfl, rfl⟩
  · exact Is_of_id_eq _ _ rfl
  · exact Is_of_id_eq _ _ rfl

/-- C2 witness: the theorem at three concrete cause-free sentinels. -/
theorem C2_chain_order_witness :
    WrapErrors (some (.structured ArgumentMissing))
        [some (.structured ArgumentInvalid), some (.structured InvalidType)] []
      = ArgumentMissing.Wrap
          (ArgumentInvalid.Wrap (some (.structured InvalidType)) []) [] :=
  (C2_chain_order ArgumentMissing ArgumentInvalid InvalidType [] rfl rfl rfl).1

/-- C3: wrapping propagates absence — `e.Wrap(nil)` is nil, `WrapErrors` with
a nil first argument is nil whatever the rest, and `WrapErrors(A)` with no
further arguments returns `A` unchanged. -/
theorem C3_nil_transparency (e : Error) (rest : List (Option ErrVal))
    (A : ErrVal) (fr : StackTrace) :
    e.Wrap none fr = none ∧
    WrapErrors none rest fr = none ∧
    WrapErrors (some A) [] fr = some A :=
  ⟨rfl, wrapErrors_none rest fr, rfl⟩

/-- The payload of the source's `TestFailsUnmarshallErrorWithWrongType`:
`"type"` is present, but `"blob"` instead of `"error"`. -/
def payloadBlob : Json :=
  .obj [("type", .str "blob"), ("id", .str "error.argument.invalid"),
    ("code", .num 400), ("text", .str "Argument %s is invalid (value: %v)"),
    ("what", .str "key"), ("value", .str "value")]

/-- The `What` of the detail extracted (per `errors.As` with a cloned sentinel
of identifier `tid`) from the error a decode of `payload` fails with. -/
def decodeDetailWhat (payload : Json) (tid : String) : Option String :=
  match Error.UnmarshalJSON payload [] with
  | .error e => (goAs (some e) tid).map Error.What
  | .ok _ => none

/-- C4 counterexample: decoding `\x7b"type":"blob", ...\x7d` fails, but the
extracted `InvalidType` detail reports `what = "error"` (the expected type
literal, from `InvalidType.With("error", inner.Type)`), not `what = "type"`
as claimed. -/
theorem C4_counterexample :
    decodeDetailWhat payloadBlob InvalidType.ID = some "error" ∧
    decodeDetailWhat payloadBlob InvalidType.ID ≠ some "type" := by
  refine ⟨rfl, ?_⟩
  rw [show decodeDetailWhat payloadBlob InvalidType.ID = some "error" from rfl]
  decide

/-- C4 (amended): for every JSON object whose fields parse into the surrogate
but whose `"type"` discriminator differs from `"error"`, the decode fails with
`JSONUnmarshalError.Wrap(InvalidType.With("error", inner.Type))` — a
Serialization-kind error from whose chain a detail is extracted reporting
`what = "error"` (the expected literal) and `value` = the payload's type
string — and the receiver is not populated. -/
theorem C4_amended (fields : List (String × Json)) (fr : StackTrace)
    (inner : Inner) (receiver : Error)
    (hp : parseInnerF (jsize (Json.obj fields)) fields fr = .ok inner)
    (hty : inner.type ≠ "error") :
    Error.UnmarshalJSON (.obj fields) fr
      = .error (typeMismatchErr inner.type fr) ∧
    errIs (typeMismatchErr inner.type fr) (.structured JSONUnmarshalError) = true ∧
    goUnwrap (some (typeMismatchErr inner.type fr))
      = some (InvalidType.With "error" [some (.str inner.type)] fr) ∧
    (goAs (some (typeMismatchErr inner.type fr)) InvalidType.ID).map Error.What
      = some "error" ∧
    (goAs (some (typeMismatchErr inner.type fr)) InvalidType.ID).map Error.Value
      = some (some (.str inner.type)) ∧
    unmarshalInto receiver (.obj fields) fr
      = (receiver, some (typeMismatchErr inner.type fr)) := by
  have h1 : Error.UnmarshalJSON (.obj fields) fr
      = .error (typeMismatchErr inner.type fr) := by
    show unmarshalErrorF (jsize (Json.obj fields) + 1) (.obj fields) fr = _
    simp only [unmarshalErrorF]
    rw [hp]
    simp [finishDecode, hty]
  refine ⟨h1, rfl, rfl, rfl, rfl, ?_⟩
  simp [unmarshalInto, h1]

/-- C4 amended witness: the theorem at the `payloadBlob` fields with the
surrogate they parse to. -/
theorem C4_amended_witness :
    Error.UnmarshalJSON payloadBlob [] = .error (typeMismatchErr "blob" []) ∧
    errIs (typeMismatchErr "blob" []) (.structured JSONUnmarshalError) = true ∧
    goUnwrap (some (typeMismatchErr "blob" []))
      = some (InvalidType.With "error" [some (.str "blob")] []) ∧
    (goAs (some (typeMismatchErr "blob" [])) InvalidType.ID).map Error.What
      = some "error" ∧
    (goAs (some (typeMismatchErr "blob" [])) InvalidType.ID).map Error.Value
      = some (some (.str "blob")) ∧
    unmarshalInto ArgumentMissing payloadBlob []
      = (ArgumentMissing, some (typeMismatchErr "blob" [])) :=
  C4_amended
    [("type", .str "blob"), ("id", .str "error.argument.invalid"),
      ("code", .num 400), ("text", .str "Argument %s is invalid (value: %v)"),
      ("what", .str "key"), ("value", .str "value")]
    [] ⟨"blob", 400, "error.argument.invalid",
      "Argument %s is invalid (value: %v)", "key", some (.str "value"),
      none, []⟩
    ArgumentMissing rfl (by decide)

/-- The structured error produced by `ArgumentInvalid.With("key", "value")`
with `fr` the frames captured at the call point. -/
def c5src (fr : StackTrace) : Error :=
  .mk 400 "error.argument.invalid" "Argument %s is invalid (value: %v)" "key"
    (some (.str "value")) [] fr

/-- The error decoded back from the encoding of `c5src`. -/
def c5dec : Error :=
  .mk 400 "error.argument.invalid" "Argument %s is invalid (value: %v)" "key"
    (some (.str "value")) [] []

/-- C5: encoding then decoding `ArgumentInvalid.With("key", "value")` yields
an `Error` whose `id`, `code`, `text`, `what` and `value` equal the
original's; no object the codec emits carries a `"stack"` key; and every
successful decode leaves the stack empty. -/
theorem C5_roundtrip (fr fr2 : StackTrace) :
    ArgumentInvalid.With "key" [some (.str "value")] fr
      = .structured (c5src fr) ∧
    Error.UnmarshalJSON (Error.MarshalJSON (c5src fr)) fr2 = .ok c5dec ∧
    c5dec.ID = (c5src fr).ID ∧ c5dec.Code = (c5src fr).Code ∧
    c5dec.Text = (c5src fr).Text ∧ c5dec.What = (c5src fr).What ∧
    c5dec.Value = (c5src fr).Value ∧ c5dec.Stack = [] ∧
    (∀ e : Error, encNoStack (Error.MarshalJSON e) = true) ∧
    (∀ (fuel : Nat) (p : Json) (fr' : StackTrace) (x : Error),
      unmarshalErrorF fuel p fr' = .ok x → x.Stack = []) := by
  refine ⟨rfl, rfl, rfl, rfl, rfl, rfl, rfl, rfl,
    fun e => marshalError_noStack e, fun fuel p fr' x h => ?_⟩
  exact unmarshal_stack_empty fuel p fr' x h

/-- C5 witness: the round trip at empty capture points, the stack-free
encoding at a concrete error, and the empty decoded stack at a concrete
decode. -/
theorem C5_roundtrip_witness :
    Error.UnmarshalJSON (Error.MarshalJSON (c5src [])) [] = .ok c5dec ∧
    encNoStack (Error.MarshalJSON ArgumentMissing) = true ∧
    c5dec.Stack = [] := by
  obtain ⟨h1, h2, h3, h4, h5, h6, h7, h8, h9, h10⟩ := C5_roundtrip [] []
  exact ⟨h2, h9 ArgumentMissing,
    h10 3 (.obj [("type", .str "error")]) [] (.mk 0 "" "" "" none [] []) rfl⟩

/-- The stack of a non-nil error value (a foreign error carries none). -/
def ErrVal.stackOf : ErrVal → StackTrace
  | .structured e => e.Stack
  | .foreign _ _ _ _ => []

/-- An error whose stack was already captured (frames `[5]`). -/
def e6 : Error := .mk 501 "error.test.stacked" "" "" none [] [5]

/-- A foreign `*errors.errorString` error. -/
def f6 : ErrVal := .foreign "errors" "errorString" "errors.errorString" "boom"

/-- C6 counterexample: wrapping with an `Error` whose stack is already
non-empty replaces the captured stack — `StackTrace.Initialize` (stack.go)
overwrites unconditionally, so both `Error.Wrap` and `Error.WithStack` record
the frames captured at their own call point, changing the frame count and the
first frame. -/
theorem C6_counterexample :
    (e6.Wrap (some f6) [7, 8]).map ErrVal.stackOf = some [7, 8] ∧
    ErrVal.stackOf (e6.WithStack [7, 8]) = [7, 8] ∧
    e6.Stack = [5] ∧
    ([7, 8] : StackTrace).length ≠ e6.Stack.length ∧
    ([7, 8] : StackTrace).head? ≠ e6.Stack.head? :=
  ⟨rfl, rfl, rfl, by decide, by decide⟩

/-- C6 (amended): the package-level `WithStack` never replaces an already
non-empty stack — it returns the error unchanged, so frame count and first
frame are untouched; the `Error.Wrap` and `Error.WithStack` methods, by
contrast, set the returned copy's stack to the frames captured at their call
point (the receiver itself is never modified). -/
theorem C6_amended (e : Error) (v : ErrVal) (fr : StackTrace)
    (h : e.Stack ≠ []) :
    WithStack (some (.structured e)) fr = some (.structured e) ∧
    (e.Wrap (some v) fr).map ErrVal.stackOf = some fr ∧
    ErrVal.stackOf (e.WithStack fr) = fr := by
  have hlen : ¬ e.Stack.length = 0 := by
    simpa [List.length_eq_zero] using h
  exact ⟨by simp [WithStack, hlen], rfl, rfl⟩

/-- C6 amended witness: the theorem at `e6` and frames `[7, 8]`. -/
theorem C6_amended_witness :
    WithStack (some (.structured e6)) [7, 8] = some (.structured e6) ∧
    (e6.Wrap (some f6) [7, 8]).map ErrVal.stackOf = some [7, 8] ∧
    ErrVal.stackOf (e6.WithStack [7, 8]) = [7, 8] :=
  C6_amended e6 f6 [7, 8] (by decide)

/-- A structured error used as the first argument of `WrapErrors`. -/
def a7 : ErrVal :=
  .structured (.mk 400 "error.argument.missing" "Argument %s is missing" "k"
    none [] [1])

/-- A structured error used inside the rest of `WrapErrors`. -/
def b7 : ErrVal := .structured ArgumentInvalid

/-- `WrapErrors` on a rest of two or more elements peels the first and wraps
the recursive result. -/
theorem wrapErrors_cons (a : ErrVal) (e1 : Option ErrVal)
    (L : List (Option ErrVal)) (fr : StackTrace) (hL : L ≠ []) :
    WrapErrors (some a) (e1 :: L) fr
      = (toContainer a).Wrap (WrapErrors e1 L fr) fr := by
  cases L with
  | nil => exact absurd rfl hL
  | cons x xs => rfl

/-- C7 counterexample: a nil in the **last** position of the rest does not
short-circuit `WrapErrors` to nil — `WrapErrors(A, nil)` returns `A`'s
container, and `WrapErrors(A, B, nil)` returns `A` wrapping `B`. -/
theorem C7_counterexample :
    WrapErrors (some a7) [none] [] = some a7 ∧
    WrapErrors (some a7) [none] [] ≠ none ∧
    WrapErrors (some a7) [some b7, none] []
      = some (.structured (.mk 400 "error.argument.missing"
          "Argument %s is missing" "k" none
          [some (.structured ArgumentInvalid)] [])) ∧
    WrapErrors (some a7) [some b7, none] [] ≠ none := by
  refine ⟨rfl, ?_, rfl, ?_⟩
  · rw [show WrapErrors (some a7) [none] [] = some a7 from rfl]
    simp
  · rw [show WrapErrors (some a7) [some b7, none] []
        = some (.structured (.mk 400 "error.argument.missing"
            "Argument %s is missing" "k" none
            [some (.structured ArgumentInvalid)] [])) from rfl]
    simp

/-- C7 (amended): a nil element at any position of the rest **other than the
last** short-circuits `WrapErrors` to nil (a nil in the last position is
dropped instead, as the counterexample shows). -/
theorem C7_amended (a : ErrVal) (pre post : List (Option ErrVal))
    (fr : StackTrace) (hpost : post ≠ []) :
    WrapErrors (some a) (pre ++ none :: post) fr = none := by
  induction pre generalizing a with
  | nil =>
    rw [List.nil_append, wrapErrors_cons a none post fr hpost,
      wrapErrors_none post fr]
    rfl
  | cons q pre ih =>
    rw [List.cons_append,
      wrapErrors_cons a q (pre ++ none :: post) fr (by simp)]
    cases q with
    | none => rw [wrapErrors_none]; rfl
    | some a' => rw [ih a']; rfl

/-- C7 amended witness: a nil in the middle discards everything. -/
theorem C7_amended_witness :
    WrapErrors (some a7) [none, some b7] [] = none :=
  C7_amended a7 [] [some b7] [] (by simp)

/-- A foreign error with message `"x"` (a `*errors.errorString`). -/
def fX : ErrVal := .foreign "errors" "errorString" "errors.errorString" "x"

/-- `ArgumentMissing.With("k")` (frames empty). -/
def amK : ErrVal := ArgumentMissing.With "k" [] []

/-- The structured result of `WrapErrors(ArgumentMissing.With("k"),
foreign("x"))`. -/
def e8 : Error :=
  .mk 400 "error.argument.missing" "Argument %s is missing" "k" none
    [some fX] []

/-- The `ID` of the first cause of an error value, when that cause is a
structured error. -/
def causeIdOf (w : Option ErrVal) : Option String :=
  match goUnwrap w with
  | some (.structured e) => some e.ID
  | _ => none

/-- The fields of a JSON object (other values have none). -/
def jfieldsOf : Json → List (String × Json)
  | .obj fs => fs
  | _ => []

/-- A field of the `"cause"` object inside an encoded error. -/
def causeField (j : Json) (key : String) : Option Json :=
  match jlookup (jfieldsOf j) "cause" with
  | some c => jlookup (jfieldsOf c) key
  | none => none

/-- C8 counterexample: `WrapErrors(ArgumentMissing.With("k"), foreign("x"))`
leaves the foreign cause untouched — the cause of the result is the raw
foreign error, not a synthetic `Error`, so it has no `id` at all (in
particular none beginning with the runtime prefix). -/
theorem C8_counterexample :
    goUnwrap (WrapErrors (some amK) [some fX] []) = some fX ∧
    causeIdOf (WrapErrors (some amK) [some fX] []) = none :=
  ⟨rfl, rfl⟩

/-- C8 (amended): normalization into a synthetic runtime-id `Error` happens
(a) to the **first** argument of `WrapErrors` when it is foreign (id
`"error.runtime"`, text = the foreign message), and (b) to foreign **causes**
at JSON-marshal time (id `runtimeId`, text = the foreign message); in
particular the encoded cause of `WrapErrors(ArgumentMissing.With("k"),
foreign("x"))` has id `"error.runtime"` and text `"x"`. -/
theorem C8_amended (p n ts m : String) (v : ErrVal) (fr : StackTrace) :
    WrapErrors (some (.foreign p n ts m)) [some v] fr
      = (Error.mk 500 "error.runtime" m "" none [] []).Wrap (some v) fr ∧
    marshalCauses [some (.foreign p n ts m)]
      = [marshalPayload 500 (runtimeId p n ts) m "" none []] ∧
    WrapErrors (some amK) [some fX] [] = some (.structured e8) ∧
    causeField (Error.MarshalJSON e8) "id" = some (.str "error.runtime") ∧
    causeField (Error.MarshalJSON e8) "text" = some (.str "x") :=
  ⟨rfl, rfl, rfl, rfl, rfl⟩

/-- C9: every derivation operation returns a new value built from a copy of
its receiver — the embedding of the source's value receivers (`final := e`)
as pure functions; each operation changes only its intended fields, so after
`S.With("x")` the sentinel `S` itself is untouched, its `What` still empty
and its `Value` still nil. -/
theorem C9_copy_semantics (S : Error) (what : String)
    (vals : List (Option Json)) (v : ErrVal) (fr : StackTrace) :
    (∃ e', S.With what vals fr = .structured e' ∧ e'.Code = S.Code ∧
      e'.ID = S.ID ∧ e'.Text = S.Text ∧ e'.Causes = S.Causes ∧
      e'.What = what) ∧
    (∃ e', S.Wrap (some v) fr = some (.structured e') ∧ e'.Code = S.Code ∧
      e'.ID = S.ID ∧ e'.Text = S.Text ∧ e'.What = S.What ∧
      e'.Value = S.Value ∧ e'.Causes = S.Causes ++ [some v]) ∧
    (∃ e', S.WithStack fr = .structured e' ∧ e'.Code = S.Code ∧
      e'.ID = S.ID ∧ e'.Text = S.Text ∧ e'.What = S.What ∧
      e'.Value = S.Value ∧ e'.Causes = S.Causes ∧
      e'.Stack = initStack S.Stack fr) ∧
    (∃ e', S.WithoutStack = .structured e' ∧ e'.Code = S.Code ∧
      e'.ID = S.ID ∧ e'.Text = S.Text ∧ e'.What = S.What ∧
      e'.Value = S.Value ∧ e'.Causes = S.Causes ∧ e'.Stack = []) :=
  ⟨⟨_, rfl, rfl, rfl, rfl, rfl, rfl⟩,
    ⟨_, rfl, rfl, rfl, rfl, rfl, rfl, rfl⟩,
    ⟨_, rfl, rfl, rfl, rfl, rfl, rfl, rfl, rfl⟩,
    ⟨_, rfl, rfl, rfl, rfl, rfl, rfl, rfl, rfl⟩⟩

/-- C10: `Error.Unwrap` deterministically returns the first element of
`Causes` (and nil when the list is empty), so repeated `Unwrap` alone never
reaches a cause at a later position; `WithCause` appends to `Causes`. -/
theorem C10_unwrap_first (e : Error) (errs : List (Option ErrVal)) :
    e.Unwrap = e.Causes.head?.getD none ∧
    (e.Causes = [] → e.Unwrap = none) ∧
    (∀ c rest, e.Causes = c :: rest → e.Unwrap = c) ∧
    (e.WithCause errs).Causes = e.Causes ++ errs := by
  obtain ⟨c, i, t, w, v, cs, st⟩ := e
  refine ⟨?_, ?_, ?_, rfl⟩
  · cases cs <;> rfl
  · intro h
    simp only [Error.Causes] at h
    subst h
    rfl
  · intro c0 rest h
    simp only [Error.Causes] at h
    subst h
    rfl

/-- An error with two causes. -/
def e10 : Error := .mk 500 "error.multi" "" "" none [some fX, none] []

/-- C10 witness: the theorem applied at an error with two causes — `Unwrap`
yields exactly the first one. -/
theorem C10_unwrap_first_witness :
    e10.Causes = [some fX, none] ∧ e10.Unwrap = some fX :=
  ⟨rfl, (C10_unwrap_first e10 []).2.2.1 (some fX) [none] rfl⟩

end GoErrors
